import Mathlib

/-!
Shallow embedding of the core transfer protocol of the `ipc-channel` crate
(`src/ipc.rs`): typed IPC endpoints whose serialization diverts embedded
channel endpoints and shared-memory regions into per-thread side-band
buffers, replacing each by a small integer index in the byte stream, and
whose deserialization resolves those indices against the side-band vectors
of the incoming message.

The OS backend (`src/platform/*`) is opaque to the core and is modelled from
the spec's backend contract; everything else is translated from `src/ipc.rs`.
Rust panics are modelled as an explicit `RunResult.panicked` outcome, and the
payload byte stream is modelled as a list of tokens (raw bytes and usize
values, as emitted by the bincode serializer for data bytes and for
side-band indices).
-/

namespace IpcChannel

/-- Modelled from the spec: an OS-level sender handle (`OsIpcSender`, from the
out-of-scope platform backend). Only its identity matters to the core. -/
structure OsIpcSender where
  handle : Nat
deriving DecidableEq

/-- Modelled from the spec: an OS-level receiver handle (`OsIpcReceiver`). -/
structure OsIpcReceiver where
  handle : Nat
deriving DecidableEq

/-- Modelled from the spec: an OS shared-memory region (`OsIpcSharedMemory`),
a cloneable view dereferencing to a byte slice. -/
structure OsIpcSharedMemory where
  bytes : List Nat
deriving DecidableEq

/-- Modelled from the spec: a just-received, not-yet-classified OS handle
(`OsOpaqueIpcChannel`); `to_sender` / `to_receiver` classify it. -/
structure OsOpaqueIpcChannel where
  handle : Nat
deriving DecidableEq

/-- Modelled from the spec: sender clones share the underlying kernel handle. -/
def OsIpcSender.clone (s : OsIpcSender) : OsIpcSender := s

/-- Modelled from the spec: `OsIpcReceiver::consume` moves the underlying
handle out of a receiver (receivers are move-only). -/
def OsIpcReceiver.consume (r : OsIpcReceiver) : OsIpcReceiver := r

/-- Modelled from the spec: classify a received handle as a sender. -/
def OsOpaqueIpcChannel.to_sender (c : OsOpaqueIpcChannel) : OsIpcSender :=
  { handle := c.handle }

/-- Modelled from the spec: classify a received handle as a receiver. -/
def OsOpaqueIpcChannel.to_receiver (c : OsOpaqueIpcChannel) : OsIpcReceiver :=
  { handle := c.handle }

/-- Modelled from the spec: shared-memory regions are cloneable views. -/
def OsIpcSharedMemory.clone (m : OsIpcSharedMemory) : OsIpcSharedMemory := m

/-- A tagged outbound handle, `platform::OsIpcChannel`: the `{Sender | Receiver}`
variant pushed onto the outbound side-band buffer during serialization. -/
inductive OsIpcChannel
  | Sender (s : OsIpcSender)
  | Receiver (r : OsIpcReceiver)
deriving DecidableEq

/-- Modelled from the spec: transporting a tagged handle across the process
boundary surfaces it on the receiving side as a not-yet-classified handle. -/
def OsIpcChannel.toOsOpaqueIpcChannel : OsIpcChannel → OsOpaqueIpcChannel
  | OsIpcChannel.Sender s => { handle := s.handle }
  | OsIpcChannel.Receiver r => { handle := r.handle }

/-- One token of the payload byte stream: a raw data byte, or a usize value
(bincode writes both data lengths and side-band indices as usize). -/
inductive Token
  | byte (b : Nat)
  | nat (n : Nat)
deriving DecidableEq

/-- Kinds of `std::io::Error` the protocol layer distinguishes. -/
inductive IoErrorKind
  | connectionReset
  | wouldBlock
  | otherIo
deriving DecidableEq

/-- The `bincode::ErrorKind` surface the core matches on: an I/O error with a
kind, or any other (custom serde) serialization/deserialization failure. -/
inductive BincodeErrorKind
  | ioError (k : IoErrorKind)
  | customError
deriving DecidableEq

/-- The four per-thread side-band buffers of `src/ipc.rs` (the `thread_local!`
statics `OS_IPC_CHANNELS_FOR_SERIALIZATION`,
`OS_IPC_SHARED_MEMORY_REGIONS_FOR_SERIALIZATION` and their deserialization
counterparts). -/
structure ThreadLocals where
  osIpcChannelsForSerialization : List OsIpcChannel
  osIpcSharedMemoryRegionsForSerialization : List OsIpcSharedMemory
  osIpcChannelsForDeserialization : List OsOpaqueIpcChannel
  osIpcSharedMemoryRegionsForDeserialization : List (Option OsIpcSharedMemory)
deriving DecidableEq

/-- Thread-local state with all four buffers empty. -/
def emptyThreadLocals : ThreadLocals :=
  { osIpcChannelsForSerialization := []
    osIpcSharedMemoryRegionsForSerialization := []
    osIpcChannelsForDeserialization := []
    osIpcSharedMemoryRegionsForDeserialization := [] }

/-- `IpcSender<T>`: owns an OS sender (the phantom type parameter is erased). -/
structure IpcSender where
  os_sender : OsIpcSender
deriving DecidableEq

/-- `IpcReceiver<T>`: owns an OS receiver (phantom type erased). -/
structure IpcReceiver where
  os_receiver : OsIpcReceiver
deriving DecidableEq

/-- `OpaqueIpcSender`: a type-erased sender endpoint. -/
structure OpaqueIpcSender where
  os_sender : OsIpcSender
deriving DecidableEq

/-- `IpcBytesSender`: a sender of raw byte payloads. -/
structure IpcBytesSender where
  os_sender : OsIpcSender
deriving DecidableEq

/-- `IpcBytesReceiver`: a receiver of raw byte payloads. -/
structure IpcBytesReceiver where
  os_receiver : OsIpcReceiver
deriving DecidableEq

/-- `IpcSharedMemory`: wraps an OS shared-memory region. -/
structure IpcSharedMemory where
  os_shared_memory : OsIpcSharedMemory
deriving DecidableEq

/-- A message as handed to the backend sender: payload bytes plus the two
side-band vectors, delivered together or not at all. -/
structure OsMessage where
  data : List Token
  channels : List OsIpcChannel
  sharedMemoryRegions : List OsIpcSharedMemory
deriving DecidableEq

/-- A serializable value, deeply embedded: pure byte content, the serializable
endpoint types of `src/ipc.rs`, shared-memory regions, pairs of values, and a
value whose user-supplied serializer fails (a custom serde error). -/
inductive Value
  | bytes (bs : List Nat)
  | sender (s : IpcSender)
  | opaqueSenderV (s : OpaqueIpcSender)
  | bytesSender (s : IpcBytesSender)
  | receiver (r : IpcReceiver)
  | bytesReceiver (r : IpcBytesReceiver)
  | sharedMem (m : IpcSharedMemory)
  | pair (a b : Value)
  | fail
deriving DecidableEq

/-- The static type a deserialization is run at (the `T` of `to::<T>()`). -/
inductive Ty
  | bytes
  | sender
  | opaqueSenderT
  | bytesSender
  | receiver
  | bytesReceiver
  | sharedMem
  | pair (a b : Ty)
deriving DecidableEq

/-- The type of a value (`Value.fail` is given `Ty.bytes`; it never serializes
successfully, so its type is never consulted). -/
def Value.ty : Value → Ty
  | Value.bytes _ => Ty.bytes
  | Value.sender _ => Ty.sender
  | Value.opaqueSenderV _ => Ty.opaqueSenderT
  | Value.bytesSender _ => Ty.bytesSender
  | Value.receiver _ => Ty.receiver
  | Value.bytesReceiver _ => Ty.bytesReceiver
  | Value.sharedMem _ => Ty.sharedMem
  | Value.pair a b => Ty.pair a.ty b.ty
  | Value.fail => Ty.bytes

/-- Translation of `serialize_os_ipc_sender` (ipc.rs:625-635): read the length
of the outbound channel buffer, push the sender (cloned) wrapped in the
`Sender` variant, and write that length into the byte stream as the index. -/
def serialize_os_ipc_sender (os_ipc_sender : OsIpcSender) (st : ThreadLocals) :
    List Token × ThreadLocals :=
  let index := st.osIpcChannelsForSerialization.length
  ([Token.nat index],
   { st with osIpcChannelsForSerialization :=
       st.osIpcChannelsForSerialization ++ [OsIpcChannel.Sender os_ipc_sender.clone] })

/-- Translation of `impl Serialize for IpcSender` (ipc.rs:300-304). -/
def IpcSender.serialize (s : IpcSender) (st : ThreadLocals) : List Token × ThreadLocals :=
  serialize_os_ipc_sender s.os_sender st

/-- Translation of `impl Serialize for OpaqueIpcSender` (ipc.rs:503-507). -/
def OpaqueIpcSender.serialize (s : OpaqueIpcSender) (st : ThreadLocals) :
    List Token × ThreadLocals :=
  serialize_os_ipc_sender s.os_sender st

/-- Translation of `impl Serialize for IpcBytesSender` (ipc.rs:612-616). -/
def IpcBytesSender.serialize (s : IpcBytesSender) (st : ThreadLocals) :
    List Token × ThreadLocals :=
  serialize_os_ipc_sender s.os_sender st

/-- Translation of `impl Serialize for IpcReceiver` (ipc.rs:220-232): push the
consumed OS receiver wrapped in the `Receiver` variant and write the length of
the buffer before the push as the index. -/
def IpcReceiver.serialize (r : IpcReceiver) (st : ThreadLocals) : List Token × ThreadLocals :=
  let index := st.osIpcChannelsForSerialization.length
  ([Token.nat index],
   { st with osIpcChannelsForSerialization :=
       st.osIpcChannelsForSerialization ++ [OsIpcChannel.Receiver r.os_receiver.consume] })

/-- Translation of `impl Serialize for IpcBytesReceiver` (ipc.rs:576-588). -/
def IpcBytesReceiver.serialize (r : IpcBytesReceiver) (st : ThreadLocals) :
    List Token × ThreadLocals :=
  let index := st.osIpcChannelsForSerialization.length
  ([Token.nat index],
   { st with osIpcChannelsForSerialization :=
       st.osIpcChannelsForSerialization ++ [OsIpcChannel.Receiver r.os_receiver.consume] })

/-- Translation of `impl Serialize for IpcSharedMemory` (ipc.rs:383-396): push
a clone of the region onto the outbound memory buffer and write the length of
that buffer before the push as the index. -/
def IpcSharedMemory.serialize (m : IpcSharedMemory) (st : ThreadLocals) :
    List Token × ThreadLocals :=
  let index := st.osIpcSharedMemoryRegionsForSerialization.length
  ([Token.nat index],
   { st with osIpcSharedMemoryRegionsForSerialization :=
       st.osIpcSharedMemoryRegionsForSerialization ++ [m.os_shared_memory.clone] })

/-- The generic byte serializer (`bincode::serialize_into`) walking a value:
byte content is written as a usize length followed by the raw bytes; each
embedded endpoint or region is encoded by its custom `Serialize` impl above;
a failing user serializer aborts with a custom error, leaving the side-band
buffers as they were at the point of failure (Rust's `Vec` pushes persist). -/
def serializeValue : Value → ThreadLocals → Except BincodeErrorKind (List Token) × ThreadLocals
  | Value.bytes bs, st => (Except.ok (Token.nat bs.length :: bs.map Token.byte), st)
  | Value.sender s, st =>
    let r := IpcSender.serialize s st
    (Except.ok r.1, r.2)
  | Value.opaqueSenderV s, st =>
    let r := OpaqueIpcSender.serialize s st
    (Except.ok r.1, r.2)
  | Value.bytesSender s, st =>
    let r := IpcBytesSender.serialize s st
    (Except.ok r.1, r.2)
  | Value.receiver r, st =>
    let p := IpcReceiver.serialize r st
    (Except.ok p.1, p.2)
  | Value.bytesReceiver r, st =>
    let p := IpcBytesReceiver.serialize r st
    (Except.ok p.1, p.2)
  | Value.sharedMem m, st =>
    let p := IpcSharedMemory.serialize m st
    (Except.ok p.1, p.2)
  | Value.pair a b, st =>
    match serializeValue a st with
    | (Except.error e, st2) => (Except.error e, st2)
    | (Except.ok ta, st2) =>
      match serializeValue b st2 with
      | (Except.error e, st3) => (Except.error e, st3)
      | (Except.ok tb, st3) => (Except.ok (ta ++ tb), st3)
  | Value.fail, st => (Except.error BincodeErrorKind.customError, st)

/-- Translation of `IpcSender::send` (ipc.rs:257-281): save and clear the two
outbound thread-local buffers, run the serializer, and on success swap the
accumulated buffers out, restore the saved ones, and hand the payload plus
side-bands to the backend sender. On serializer failure the `?` operator
returns before the restoring `mem::replace` calls run, so the thread-local
buffers keep the partially accumulated handles and the saved contents are
dropped (this mirrors the source control flow exactly). The backend send is
modelled as succeeding, returning the message it would deliver. -/
def IpcSender.send (_tx : IpcSender) (data : Value) (st : ThreadLocals) :
    Except BincodeErrorKind OsMessage × ThreadLocals :=
  let old_os_ipc_channels := st.osIpcChannelsForSerialization
  let old_os_ipc_shared_memory_regions := st.osIpcSharedMemoryRegionsForSerialization
  let st1 := { st with
    osIpcChannelsForSerialization := []
    osIpcSharedMemoryRegionsForSerialization := [] }
  match serializeValue data st1 with
  | (Except.error e, st2) => (Except.error e, st2)
  | (Except.ok bytes, st2) =>
    let os_ipc_channels := st2.osIpcChannelsForSerialization
    let os_ipc_shared_memory_regions := st2.osIpcSharedMemoryRegionsForSerialization
    let st3 := { st2 with
      osIpcChannelsForSerialization := old_os_ipc_channels
      osIpcSharedMemoryRegionsForSerialization := old_os_ipc_shared_memory_regions }
    (Except.ok { data := bytes
                 channels := os_ipc_channels
                 sharedMemoryRegions := os_ipc_shared_memory_regions },
     st3)

/-- Translation of `IpcBytesSender::send` (ipc.rs:618-623): hand the raw bytes
to the backend with empty channel and shared-memory side-band vectors. -/
def IpcBytesSender.send (_tx : IpcBytesSender) (data : List Nat) : OsMessage :=
  { data := data.map Token.byte
    channels := []
    sharedMemoryRegions := [] }

/-- Outcome of running code that may return a value, return a
serialization/deserialization error, or hit a Rust `panic!`. -/
inductive RunResult (α : Type)
  | ok (a : α)
  | error (e : BincodeErrorKind)
  | panicked
deriving DecidableEq

/-- Read `n` raw data bytes off the front of the token stream. -/
def readBytes : Nat → List Token → Option (List Nat × List Token)
  | 0, ts => some ([], ts)
  | n + 1, Token.byte b :: ts =>
    match readBytes n ts with
    | some (bs, rest) => some (b :: bs, rest)
    | none => none
  | _ + 1, _ => none

/-- Translation of `deserialize_os_ipc_sender` (ipc.rs:637-645): read a usize
index and classify the inbound opaque handle at that position as a sender.
An out-of-range index panics (the source's `[index]` on the borrowed vector;
the FIXME comment notes an `Err` should be returned instead). -/
def deserialize_os_ipc_sender (ts : List Token) (st : ThreadLocals) :
    RunResult (OsIpcSender × List Token) × ThreadLocals :=
  match ts with
  | Token.nat index :: rest =>
    match st.osIpcChannelsForDeserialization[index]? with
    | some c => (RunResult.ok (c.to_sender, rest), st)
    | none => (RunResult.panicked, st)
  | _ => (RunResult.error BincodeErrorKind.customError, st)

/-- Translation of `impl Deserialize for IpcReceiver` (ipc.rs:204-218): read a
usize index and classify the inbound opaque handle at that position as a
receiver; an out-of-range index panics. -/
def IpcReceiver.deserialize (ts : List Token) (st : ThreadLocals) :
    RunResult (IpcReceiver × List Token) × ThreadLocals :=
  match ts with
  | Token.nat index :: rest =>
    match st.osIpcChannelsForDeserialization[index]? with
    | some c => (RunResult.ok ({ os_receiver := c.to_receiver }, rest), st)
    | none => (RunResult.panicked, st)
  | _ => (RunResult.error BincodeErrorKind.customError, st)

/-- Translation of `impl Deserialize for IpcBytesReceiver` (ipc.rs:561-574). -/
def IpcBytesReceiver.deserialize (ts : List Token) (st : ThreadLocals) :
    RunResult (IpcBytesReceiver × List Token) × ThreadLocals :=
  match ts with
  | Token.nat index :: rest =>
    match st.osIpcChannelsForDeserialization[index]? with
    | some c => (RunResult.ok ({ os_receiver := c.to_receiver }, rest), st)
    | none => (RunResult.panicked, st)
  | _ => (RunResult.error BincodeErrorKind.customError, st)

/-- Translation of `impl Deserialize for IpcSharedMemory` (ipc.rs:366-381):
read a usize index, `mem::replace` the slot at that index with `None` and
`unwrap` the taken value. An out-of-range index panics (vector indexing), and
a slot already taken within the same message panics (`unwrap` of `None`). -/
def IpcSharedMemory.deserialize (ts : List Token) (st : ThreadLocals) :
    RunResult (IpcSharedMemory × List Token) × ThreadLocals :=
  match ts with
  | Token.nat index :: rest =>
    match st.osIpcSharedMemoryRegionsForDeserialization[index]? with
    | some (some m) =>
      (RunResult.ok ({ os_shared_memory := m }, rest),
       { st with osIpcSharedMemoryRegionsForDeserialization :=
           st.osIpcSharedMemoryRegionsForDeserialization.set index none })
    | some none => (RunResult.panicked, st)
    | none => (RunResult.panicked, st)
  | _ => (RunResult.error BincodeErrorKind.customError, st)

/-- The generic byte deserializer (`bincode::deserialize`) run at a static
type: byte content reads a usize length and that many raw bytes; embedded
endpoints and regions are decoded by their custom `Deserialize` impls above;
a token-shape mismatch is a bincode error. -/
def deserializeValue : Ty → List Token → ThreadLocals →
    RunResult (Value × List Token) × ThreadLocals
  | Ty.bytes, ts, st =>
    match ts with
    | Token.nat n :: rest =>
      match readBytes n rest with
      | some (bs, rest2) => (RunResult.ok (Value.bytes bs, rest2), st)
      | none => (RunResult.error BincodeErrorKind.customError, st)
    | _ => (RunResult.error BincodeErrorKind.customError, st)
  | Ty.sender, ts, st =>
    match deserialize_os_ipc_sender ts st with
    | (RunResult.ok (s, rest), st2) =>
      (RunResult.ok (Value.sender { os_sender := s }, rest), st2)
    | (RunResult.error e, st2) => (RunResult.error e, st2)
    | (RunResult.panicked, st2) => (RunResult.panicked, st2)
  | Ty.opaqueSenderT, ts, st =>
    match deserialize_os_ipc_sender ts st with
    | (RunResult.ok (s, rest), st2) =>
      (RunResult.ok (Value.opaqueSenderV { os_sender := s }, rest), st2)
    | (RunResult.error e, st2) => (RunResult.error e, st2)
    | (RunResult.panicked, st2) => (RunResult.panicked, st2)
  | Ty.bytesSender, ts, st =>
    match deserialize_os_ipc_sender ts st with
    | (RunResult.ok (s, rest), st2) =>
      (RunResult.ok (Value.bytesSender { os_sender := s }, rest), st2)
    | (RunResult.error e, st2) => (RunResult.error e, st2)
    | (RunResult.panicked, st2) => (RunResult.panicked, st2)
  | Ty.receiver, ts, st =>
    match IpcReceiver.deserialize ts st with
    | (RunResult.ok (r, rest), st2) => (RunResult.ok (Value.receiver r, rest), st2)
    | (RunResult.error e, st2) => (RunResult.error e, st2)
    | (RunResult.panicked, st2) => (RunResult.panicked, st2)
  | Ty.bytesReceiver, ts, st =>
    match IpcBytesReceiver.deserialize ts st with
    | (RunResult.ok (r, rest), st2) => (RunResult.ok (Value.bytesReceiver r, rest), st2)
    | (RunResult.error e, st2) => (RunResult.error e, st2)
    | (RunResult.panicked, st2) => (RunResult.panicked, st2)
  | Ty.sharedMem, ts, st =>
    match IpcSharedMemory.deserialize ts st with
    | (RunResult.ok (m, rest), st2) => (RunResult.ok (Value.sharedMem m, rest), st2)
    | (RunResult.error e, st2) => (RunResult.error e, st2)
    | (RunResult.panicked, st2) => (RunResult.panicked, st2)
  | Ty.pair ta tb, ts, st =>
    match deserializeValue ta ts st with
    | (RunResult.ok (va, rest), st2) =>
      match deserializeValue tb rest st2 with
      | (RunResult.ok (vb, rest2), st3) => (RunResult.ok (Value.pair va vb, rest2), st3)
      | (RunResult.error e, st3) => (RunResult.error e, st3)
      | (RunResult.panicked, st3) => (RunResult.panicked, st3)
    | (RunResult.error e, st2) => (RunResult.error e, st2)
    | (RunResult.panicked, st2) => (RunResult.panicked, st2)

/-- `OpaqueIpcMessage`: a received message's payload plus its side-band
vectors, the memory regions option-wrapped so each can be taken once. -/
structure OpaqueIpcMessage where
  data : List Token
  os_ipc_channels : List OsOpaqueIpcChannel
  os_ipc_shared_memory_regions : List (Option OsIpcSharedMemory)
deriving DecidableEq

/-- Translation of `OpaqueIpcMessage::new` (ipc.rs:444-457). -/
def OpaqueIpcMessage.new (data : List Token) (os_ipc_channels : List OsOpaqueIpcChannel)
    (os_ipc_shared_memory_regions : List OsIpcSharedMemory) : OpaqueIpcMessage :=
  { data := data
    os_ipc_channels := os_ipc_channels
    os_ipc_shared_memory_regions := os_ipc_shared_memory_regions.map (fun m => some m) }

/-- Translation of `OpaqueIpcMessage::to` (ipc.rs:459-477): swap the message's
side-band vectors into the inbound thread-local buffers, run the
deserializer, then swap the buffers back before checking the result (the
source comments that the cleanup is needed in both the success and the error
cases). A panic unwinds out of the function before the restoring swaps. -/
def OpaqueIpcMessage.to (msg : OpaqueIpcMessage) (t : Ty) (st : ThreadLocals) :
    RunResult Value × ThreadLocals :=
  let stIn := { st with
    osIpcChannelsForDeserialization := msg.os_ipc_channels
    osIpcSharedMemoryRegionsForDeserialization := msg.os_ipc_shared_memory_regions }
  match deserializeValue t msg.data stIn with
  | (RunResult.ok (v, _), st2) =>
    (RunResult.ok v,
     { st2 with
       osIpcChannelsForDeserialization := st.osIpcChannelsForDeserialization
       osIpcSharedMemoryRegionsForDeserialization :=
         st.osIpcSharedMemoryRegionsForDeserialization })
  | (RunResult.error e, st2) =>
    (RunResult.error e,
     { st2 with
       osIpcChannelsForDeserialization := st.osIpcChannelsForDeserialization
       osIpcSharedMemoryRegionsForDeserialization :=
         st.osIpcSharedMemoryRegionsForDeserialization })
  | (RunResult.panicked, st2) => (RunResult.panicked, st2)

/-- Translation of `IpcReceiver::recv` (ipc.rs:165-168): pull
`(data, channels, regions)` from the backend receiver — here passed in as the
backend's result — and run `OpaqueIpcMessage::new(..).to()`. -/
def IpcReceiver.recv (_rx : IpcReceiver) (t : Ty)
    (backendResult : Except IoErrorKind
      (List Token × List OsOpaqueIpcChannel × List OsIpcSharedMemory))
    (st : ThreadLocals) : RunResult Value × ThreadLocals :=
  match backendResult with
  | Except.error e => (RunResult.error (BincodeErrorKind.ioError e), st)
  | Except.ok (data, chans, mems) => (OpaqueIpcMessage.new data chans mems).to t st

/-- Translation of `IpcBytesReceiver::recv` (ipc.rs:551-559): return the
payload bytes of the received triple and discard the side-band vectors. -/
def IpcBytesReceiver.recv (_rx : IpcBytesReceiver)
    (backendResult : Except IoErrorKind
      (List Token × List OsOpaqueIpcChannel × List OsIpcSharedMemory)) :
    Except BincodeErrorKind (List Token) :=
  match backendResult with
  | Except.ok (data, _, _) => Except.ok data
  | Except.error err => Except.error (BincodeErrorKind.ioError err)

/-- Modelled from the spec: the backend delivers payload and side-band vectors
together, handles surfacing on the receiving side as opaque handles. -/
def OsMessage.deliver (m : OsMessage) :
    List Token × List OsOpaqueIpcChannel × List OsIpcSharedMemory :=
  (m.data, m.channels.map OsIpcChannel.toOsOpaqueIpcChannel, m.sharedMemoryRegions)

/-- A send on one end of a channel followed by a receive on the paired end:
the message the backend would deliver is fed to `IpcReceiver.recv`. -/
def sendThenRecv (tx : IpcSender) (rx : IpcReceiver) (t : Ty) (v : Value)
    (st : ThreadLocals) : RunResult Value × ThreadLocals :=
  match IpcSender.send tx v st with
  | (Except.error e, st2) => (RunResult.error e, st2)
  | (Except.ok msg, st2) => IpcReceiver.recv rx t (Except.ok msg.deliver) st2

/-- The `futures` 0.1 `Async` readiness type. -/
inductive Async (α : Type)
  | ready (a : α)
  | notReady
deriving DecidableEq

/-- Translation of the `Stream` impl's `poll` for `IpcReceiver` (ipc.rs:183-202)
as a function of the `try_recv` outcome: a message is a ready item; a
`ConnectionReset` I/O error ends the stream; a `WouldBlock` I/O error is
not-ready; every other error is propagated. -/
def IpcReceiver.poll (α : Type) (tryRecvResult : Except BincodeErrorKind α) :
    Except BincodeErrorKind (Async (Option α)) :=
  match tryRecvResult with
  | Except.ok msg => Except.ok (Async.ready (some msg))
  | Except.error err =>
    match err with
    | BincodeErrorKind.ioError IoErrorKind.connectionReset => Except.ok (Async.ready none)
    | BincodeErrorKind.ioError IoErrorKind.wouldBlock => Except.ok Async.notReady
    | _ => Except.error err

/-- `IpcSelectionResult` (ipc.rs:412-415): one result of a `select()` call. -/
inductive IpcSelectionResult
  | MessageReceived (id : Nat) (message : OpaqueIpcMessage)
  | ChannelClosed (id : Nat)
deriving DecidableEq

/-- Translation of `IpcSelectionResult::unwrap` (ipc.rs:417-426): the pair for
`MessageReceived`, a panic for `ChannelClosed`. -/
def IpcSelectionResult.unwrap : IpcSelectionResult → RunResult (Nat × OpaqueIpcMessage)
  | IpcSelectionResult.MessageReceived i message => RunResult.ok (i, message)
  | IpcSelectionResult.ChannelClosed _ => RunResult.panicked

/-- A value is pure byte content: no embedded endpoints, regions or failing
serializers anywhere inside it. -/
def Value.pureBytes : Value → Bool
  | Value.bytes _ => true
  | Value.sender _ => false
  | Value.opaqueSenderV _ => false
  | Value.bytesSender _ => false
  | Value.receiver _ => false
  | Value.bytesReceiver _ => false
  | Value.sharedMem _ => false
  | Value.pair a b => a.pureBytes && b.pureBytes
  | Value.fail => false

/-- A value whose serialization never hits a user-serializer failure. -/
def Value.noFail : Value → Bool
  | Value.bytes _ => true
  | Value.sender _ => true
  | Value.opaqueSenderV _ => true
  | Value.bytesSender _ => true
  | Value.receiver _ => true
  | Value.bytesReceiver _ => true
  | Value.sharedMem _ => true
  | Value.pair a b => a.noFail && b.noFail
  | Value.fail => false

/-- The tagged handles a value's serialization appends to the outbound channel
buffer, in the order the encoder visits them: receivers consumed and wrapped
in the `Receiver` variant, senders cloned and wrapped in the `Sender`
variant. -/
def Value.chansOf : Value → List OsIpcChannel
  | Value.bytes _ => []
  | Value.sender s => [OsIpcChannel.Sender s.os_sender.clone]
  | Value.opaqueSenderV s => [OsIpcChannel.Sender s.os_sender.clone]
  | Value.bytesSender s => [OsIpcChannel.Sender s.os_sender.clone]
  | Value.receiver r => [OsIpcChannel.Receiver r.os_receiver.consume]
  | Value.bytesReceiver r => [OsIpcChannel.Receiver r.os_receiver.consume]
  | Value.sharedMem _ => []
  | Value.pair a b => a.chansOf ++ b.chansOf
  | Value.fail => []

/-- The region clones a value's serialization appends to the outbound
shared-memory buffer, in visit order. -/
def Value.memsOf : Value → List OsIpcSharedMemory
  | Value.bytes _ => []
  | Value.sender _ => []
  | Value.opaqueSenderV _ => []
  | Value.bytesSender _ => []
  | Value.receiver _ => []
  | Value.bytesReceiver _ => []
  | Value.sharedMem m => [m.os_shared_memory.clone]
  | Value.pair a b => a.memsOf ++ b.memsOf
  | Value.fail => []

/-- The payload a value serializes to when the outbound channel buffer already
holds `c` handles and the memory buffer `m` regions: each embedded endpoint
contributes the running channel count as its index, each region the running
region count, so indices are the buffer lengths before the respective pushes
and increase by one in visit order. -/
def Value.expectedTokens : Value → Nat → Nat → List Token
  | Value.bytes bs, _, _ => Token.nat bs.length :: bs.map Token.byte
  | Value.sender _, c, _ => [Token.nat c]
  | Value.opaqueSenderV _, c, _ => [Token.nat c]
  | Value.bytesSender _, c, _ => [Token.nat c]
  | Value.receiver _, c, _ => [Token.nat c]
  | Value.bytesReceiver _, c, _ => [Token.nat c]
  | Value.sharedMem _, _, m => [Token.nat m]
  | Value.pair a b, c, m =>
    a.expectedTokens c m ++ b.expectedTokens (c + a.chansOf.length) (m + a.memsOf.length)
  | Value.fail, _, _ => []

/-- Characterization of the serializer on non-failing values: it emits the
expected payload for the entry buffer lengths and appends exactly the visited
handles and regions, in visit order, to the outbound buffers. -/
theorem serializeValue_eq (v : Value) (st : ThreadLocals) (h : v.noFail = true) :
    serializeValue v st =
      (Except.ok (v.expectedTokens st.osIpcChannelsForSerialization.length
          st.osIpcSharedMemoryRegionsForSerialization.length),
       { st with
         osIpcChannelsForSerialization := st.osIpcChannelsForSerialization ++ v.chansOf
         osIpcSharedMemoryRegionsForSerialization :=
           st.osIpcSharedMemoryRegionsForSerialization ++ v.memsOf }) := by
  induction v generalizing st with
  | bytes bs =>
    simp [serializeValue, Value.expectedTokens, Value.chansOf, Value.memsOf]
  | sender s =>
    simp [serializeValue, IpcSender.serialize, serialize_os_ipc_sender,
      Value.expectedTokens, Value.chansOf, Value.memsOf]
  | opaqueSenderV s =>
    simp [serializeValue, OpaqueIpcSender.serialize, serialize_os_ipc_sender,
      Value.expectedTokens, Value.chansOf, Value.memsOf]
  | bytesSender s =>
    simp [serializeValue, IpcBytesSender.serialize, serialize_os_ipc_sender,
      Value.expectedTokens, Value.chansOf, Value.memsOf]
  | receiver r =>
    simp [serializeValue, IpcReceiver.serialize, Value.expectedTokens,
      Value.chansOf, Value.memsOf]
  | bytesReceiver r =>
    simp [serializeValue, IpcBytesReceiver.serialize, Value.expectedTokens,
      Value.chansOf, Value.memsOf]
  | sharedMem m =>
    simp [serializeValue, IpcSharedMemory.serialize, Value.expectedTokens,
      Value.chansOf, Value.memsOf]
  | pair a b iha ihb =>
    rw [Value.noFail] at h
    obtain ⟨ha, hb⟩ : a.noFail = true ∧ b.noFail = true := by simpa using h
    rw [serializeValue, iha _ ha]
    dsimp only
    rw [ihb _ hb]
    simp [Value.expectedTokens, Value.chansOf, Value.memsOf, List.append_assoc,
      List.length_append]
  | fail =>
    rw [Value.noFail] at h
    exact absurd h (by simp)

/-- Reading back the raw bytes a byte list was written as returns the list and
leaves the trailing tokens untouched. -/
theorem readBytes_map (bs : List Nat) (rest : List Token) :
    readBytes bs.length (bs.map Token.byte ++ rest) = some (bs, rest) := by
  induction bs with
  | nil => rfl
  | cons b tl ih => simp [readBytes, ih]

/-- Pure byte content never fails to serialize. -/
theorem pureBytes_noFail (v : Value) (h : v.pureBytes = true) : v.noFail = true := by
  induction v with
  | pair a b iha ihb =>
    rw [Value.pureBytes] at h
    obtain ⟨ha, hb⟩ : a.pureBytes = true ∧ b.pureBytes = true := by simpa using h
    rw [Value.noFail]
    simp [iha ha, ihb hb]
  | bytes bs => rfl
  | _ => simp [Value.pureBytes] at h

/-- Pure byte content appends no handles to the outbound channel buffer. -/
theorem pureBytes_chansOf (v : Value) (h : v.pureBytes = true) : v.chansOf = [] := by
  induction v with
  | pair a b iha ihb =>
    rw [Value.pureBytes] at h
    obtain ⟨ha, hb⟩ : a.pureBytes = true ∧ b.pureBytes = true := by simpa using h
    rw [Value.chansOf]
    simp [iha ha, ihb hb]
  | bytes bs => rfl
  | _ => simp [Value.pureBytes] at h

/-- Pure byte content appends no regions to the outbound memory buffer. -/
theorem pureBytes_memsOf (v : Value) (h : v.pureBytes = true) : v.memsOf = [] := by
  induction v with
  | pair a b iha ihb =>
    rw [Value.pureBytes] at h
    obtain ⟨ha, hb⟩ : a.pureBytes = true ∧ b.pureBytes = true := by simpa using h
    rw [Value.memsOf]
    simp [iha ha, ihb hb]
  | bytes bs => rfl
  | _ => simp [Value.pureBytes] at h

/-- Deserializing the payload a pure-byte value serialized to, at the value's
type, returns the value, leaves the trailing tokens as the tail, and does not
touch the thread-local buffers. -/
theorem deserializeValue_pure (v : Value) (h : v.pureBytes = true) (c m : Nat)
    (rest : List Token) (st : ThreadLocals) :
    deserializeValue v.ty (v.expectedTokens c m ++ rest) st =
      (RunResult.ok (v, rest), st) := by
  induction v generalizing c m rest with
  | bytes bs =>
    simp [Value.ty, Value.expectedTokens, deserializeValue, readBytes_map]
  | pair a b iha ihb =>
    rw [Value.pureBytes] at h
    obtain ⟨ha, hb⟩ : a.pureBytes = true ∧ b.pureBytes = true := by simpa using h
    rw [Value.ty, Value.expectedTokens, deserializeValue, List.append_assoc, iha ha]
    dsimp only
    rw [ihb hb]
  | _ => simp [Value.pureBytes] at h

/-- The sender decoder never touches the thread-local state. -/
theorem deserialize_os_ipc_sender_state (ts : List Token) (st : ThreadLocals) :
    (deserialize_os_ipc_sender ts st).2 = st := by
  cases ts with
  | nil => rfl
  | cons h1 tl =>
    cases h1 with
    | byte b => rfl
    | nat index =>
      cases hopt : st.osIpcChannelsForDeserialization[index]? with
      | none => simp [deserialize_os_ipc_sender, hopt]
      | some c => simp [deserialize_os_ipc_sender, hopt]

/-- The receiver decoder never touches the thread-local state. -/
theorem ipcReceiver_deserialize_state (ts : List Token) (st : ThreadLocals) :
    (IpcReceiver.deserialize ts st).2 = st := by
  cases ts with
  | nil => rfl
  | cons h1 tl =>
    cases h1 with
    | byte b => rfl
    | nat index =>
      cases hopt : st.osIpcChannelsForDeserialization[index]? with
      | none => simp [IpcReceiver.deserialize, hopt]
      | some c => simp [IpcReceiver.deserialize, hopt]

/-- The bytes-receiver decoder never touches the thread-local state. -/
theorem ipcBytesReceiver_deserialize_state (ts : List Token) (st : ThreadLocals) :
    (IpcBytesReceiver.deserialize ts st).2 = st := by
  cases ts with
  | nil => rfl
  | cons h1 tl =>
    cases h1 with
    | byte b => rfl
    | nat index =>
      cases hopt : st.osIpcChannelsForDeserialization[index]? with
      | none => simp [IpcBytesReceiver.deserialize, hopt]
      | some c => simp [IpcBytesReceiver.deserialize, hopt]

/-- The shared-memory decoder changes at most the inbound memory buffer. -/
theorem ipcSharedMemory_deserialize_state (ts : List Token) (st : ThreadLocals) :
    ∃ d, (IpcSharedMemory.deserialize ts st).2 =
      { st with osIpcSharedMemoryRegionsForDeserialization := d } := by
  cases ts with
  | nil => exact ⟨st.osIpcSharedMemoryRegionsForDeserialization, rfl⟩
  | cons h1 tl =>
    cases h1 with
    | byte b => exact ⟨st.osIpcSharedMemoryRegionsForDeserialization, rfl⟩
    | nat index =>
      cases hopt : st.osIpcSharedMemoryRegionsForDeserialization[index]? with
      | none =>
        refine ⟨st.osIpcSharedMemoryRegionsForDeserialization, ?_⟩
        simp [IpcSharedMemory.deserialize, hopt]
      | some o =>
        cases o with
        | none =>
          refine ⟨st.osIpcSharedMemoryRegionsForDeserialization, ?_⟩
          simp [IpcSharedMemory.deserialize, hopt]
        | some m =>
          refine ⟨st.osIpcSharedMemoryRegionsForDeserialization.set index none, ?_⟩
          simp [IpcSharedMemory.deserialize, hopt]

/-- The generic deserializer changes at most the inbound memory buffer: the
serialization buffers and the inbound channel buffer come out as they went in
(channel decoding reads the inbound channel buffer without reshaping it). -/
theorem deserializeValue_state (t : Ty) (ts : List Token) (st : ThreadLocals) :
    ∃ d, (deserializeValue t ts st).2 =
      { st with osIpcSharedMemoryRegionsForDeserialization := d } := by
  induction t generalizing ts st with
  | bytes =>
    refine ⟨st.osIpcSharedMemoryRegionsForDeserialization, ?_⟩
    cases ts with
    | nil => rfl
    | cons h1 tl =>
      cases h1 with
      | byte b => rfl
      | nat n =>
        cases hrb : readBytes n tl with
        | none => simp [deserializeValue, hrb]
        | some p =>
          obtain ⟨bs, rest2⟩ := p
          simp [deserializeValue, hrb]
  | sender =>
    have hs := deserialize_os_ipc_sender_state ts st
    refine ⟨st.osIpcSharedMemoryRegionsForDeserialization, ?_⟩
    rw [deserializeValue]
    rcases hd : deserialize_os_ipc_sender ts st with ⟨r, st2⟩
    rw [hd] at hs
    rcases r with ⟨s, rest⟩ | e | _ <;> exact hs
  | opaqueSenderT =>
    have hs := deserialize_os_ipc_sender_state ts st
    refine ⟨st.osIpcSharedMemoryRegionsForDeserialization, ?_⟩
    rw [deserializeValue]
    rcases hd : deserialize_os_ipc_sender ts st with ⟨r, st2⟩
    rw [hd] at hs
    rcases r with ⟨s, rest⟩ | e | _ <;> exact hs
  | bytesSender =>
    have hs := deserialize_os_ipc_sender_state ts st
    refine ⟨st.osIpcSharedMemoryRegionsForDeserialization, ?_⟩
    rw [deserializeValue]
    rcases hd : deserialize_os_ipc_sender ts st with ⟨r, st2⟩
    rw [hd] at hs
    rcases r with ⟨s, rest⟩ | e | _ <;> exact hs
  | receiver =>
    have hs := ipcReceiver_deserialize_state ts st
    refine ⟨st.osIpcSharedMemoryRegionsForDeserialization, ?_⟩
    rw [deserializeValue]
    rcases hd : IpcReceiver.deserialize ts st with ⟨r, st2⟩
    rw [hd] at hs
    rcases r with ⟨s, rest⟩ | e | _ <;> exact hs
  | bytesReceiver =>
    have hs := ipcBytesReceiver_deserialize_state ts st
    refine ⟨st.osIpcSharedMemoryRegionsForDeserialization, ?_⟩
    rw [deserializeValue]
    rcases hd : IpcBytesReceiver.deserialize ts st with ⟨r, st2⟩
    rw [hd] at hs
    rcases r with ⟨s, rest⟩ | e | _ <;> exact hs
  | sharedMem =>
    have hs := ipcSharedMemory_deserialize_state ts st
    rw [deserializeValue]
    rcases hd : IpcSharedMemory.deserialize ts st with ⟨r, st2⟩
    rw [hd] at hs
    obtain ⟨d, hst2⟩ := hs
    rcases r with ⟨s, rest⟩ | e | _ <;> exact ⟨d, hst2⟩
  | pair ta tb iha ihb =>
    rw [deserializeValue]
    rcases hd : deserializeValue ta ts st with ⟨r, st2⟩
    have h2 := iha ts st
    rw [hd] at h2
    obtain ⟨d2, hst2⟩ := h2
    rcases r with ⟨va, rest⟩ | e | _
    · dsimp only
      rcases hd2 : deserializeValue tb rest st2 with ⟨r2, st3⟩
      have h3 := ihb rest st2
      rw [hd2] at h3
      obtain ⟨d3, hst3⟩ := h3
      dsimp only at hst2 hst3
      rw [hst2] at hst3
      rcases r2 with ⟨vb, rest2⟩ | e | _ <;> exact ⟨d3, hst3⟩
    · exact ⟨d2, hst2⟩
    · exact ⟨d2, hst2⟩

/-- C1: at a concrete send whose serialization first diverts an embedded
`IpcSender` into the outbound channel buffer and then fails, `IpcSender::send`
surfaces the serialization error, but the thread-local outbound buffers are
NOT restored to their entry contents: the channel buffer afterwards holds the
partially accumulated handle (`Sender 5`) instead of the entry contents
(`Receiver 7`), and the entry contents of both outbound buffers (a receiver
handle and a memory region) have been dropped from the thread-local state
while the accumulated handle is retained rather than dropped. The `?` on
`bincode::serialize_into` (ipc.rs:270) returns before the restoring
`mem::replace` calls run. -/
theorem send_failure_leaves_buffers_unrestored :
    IpcSender.send { os_sender := { handle := 1 } }
        (Value.pair (Value.sender { os_sender := { handle := 5 } }) Value.fail)
        { osIpcChannelsForSerialization := [OsIpcChannel.Receiver { handle := 7 }]
          osIpcSharedMemoryRegionsForSerialization := [{ bytes := [3] }]
          osIpcChannelsForDeserialization := []
          osIpcSharedMemoryRegionsForDeserialization := [] } =
      (Except.error BincodeErrorKind.customError,
       { osIpcChannelsForSerialization := [OsIpcChannel.Sender { handle := 5 }]
         osIpcSharedMemoryRegionsForSerialization := []
         osIpcChannelsForDeserialization := []
         osIpcSharedMemoryRegionsForDeserialization := [] }) := rfl

/-- C3: `OpaqueIpcMessage::to` swaps the message's side-band vectors into the
inbound thread-local buffers, runs deserialization, and restores the inbound
thread-local buffers to their prior contents before returning, both when
deserialization succeeds and when it returns an error (a Rust panic, by
contrast, unwinds before the restoring swaps). -/
theorem opaque_message_to_restores (msg : OpaqueIpcMessage) (t : Ty) (st : ThreadLocals)
    (h : (msg.to t st).1 ≠ RunResult.panicked) :
    (msg.to t st).2 = st := by
  obtain ⟨d, hst⟩ := deserializeValue_state t msg.data
    { st with
      osIpcChannelsForDeserialization := msg.os_ipc_channels
      osIpcSharedMemoryRegionsForDeserialization := msg.os_ipc_shared_memory_regions }
  simp only [OpaqueIpcMessage.to] at h ⊢
  rcases hd : deserializeValue t msg.data
      { st with
        osIpcChannelsForDeserialization := msg.os_ipc_channels
        osIpcSharedMemoryRegionsForDeserialization := msg.os_ipc_shared_memory_regions }
    with ⟨r, st2⟩
  rw [hd] at hst h
  dsimp only at hst
  rcases r with ⟨v, rest⟩ | e | _
  · rw [hst]
  · rw [hst]
  · exact absurd rfl h

/-- Witness for C3 at a concrete input: a message whose payload is the byte
string `[9]` decodes successfully at the bytes type, and the inbound
thread-local buffers (holding one channel and one region on entry) come back
unchanged. -/
theorem opaque_message_to_restores_witness :
    ((OpaqueIpcMessage.new [Token.nat 1, Token.byte 9] [{ handle := 3 }] []).to Ty.bytes
        { osIpcChannelsForSerialization := []
          osIpcSharedMemoryRegionsForSerialization := []
          osIpcChannelsForDeserialization := [{ handle := 8 }]
          osIpcSharedMemoryRegionsForDeserialization := [some { bytes := [1] }] }).2 =
      { osIpcChannelsForSerialization := []
        osIpcSharedMemoryRegionsForSerialization := []
        osIpcChannelsForDeserialization := [{ handle := 8 }]
        osIpcSharedMemoryRegionsForDeserialization := [some { bytes := [1] }] } :=
  opaque_message_to_restores _ _ _ (by decide)

/-- C4: a received message whose payload encodes the index 1 while the
corresponding inbound side-band vector has length 1 makes deserialization of
an embedded `IpcSender` (or `OpaqueIpcSender`/`IpcBytesSender`, all via
`deserialize_os_ipc_sender`), `IpcReceiver`, `IpcBytesReceiver` or
`IpcSharedMemory` panic instead of returning a deserialization error. -/
theorem deserialize_out_of_range_panics :
    ((OpaqueIpcMessage.new [Token.nat 1] [{ handle := 9 }] [{ bytes := [4] }]).to
        Ty.sender emptyThreadLocals).1 = RunResult.panicked
    ∧ ((OpaqueIpcMessage.new [Token.nat 1] [{ handle := 9 }] [{ bytes := [4] }]).to
        Ty.receiver emptyThreadLocals).1 = RunResult.panicked
    ∧ ((OpaqueIpcMessage.new [Token.nat 1] [{ handle := 9 }] [{ bytes := [4] }]).to
        Ty.bytesReceiver emptyThreadLocals).1 = RunResult.panicked
    ∧ ((OpaqueIpcMessage.new [Token.nat 1] [{ handle := 9 }] [{ bytes := [4] }]).to
        Ty.sharedMem emptyThreadLocals).1 = RunResult.panicked :=
  ⟨rfl, rfl, rfl, rfl⟩

/-- C5: a send of a value that serializes without failure hands the backend a
payload equal to `expectedTokens v 0 0` — in which the index written for each
embedded channel endpoint is the number of channel endpoints visited before
it (so channel indices start at zero, in visit order, equal to the length of
the outbound channel buffer before the corresponding push, the buffers having
been cleared on entry to `send`), and likewise for shared-memory regions
against their own outbound buffer — together with side-band vectors listing
exactly the visited endpoints and regions in visit order; the thread-local
state is restored on return. -/
theorem send_index_numbering (tx : IpcSender) (v : Value) (st : ThreadLocals)
    (h : v.noFail = true) :
    IpcSender.send tx v st =
      (Except.ok { data := v.expectedTokens 0 0
                   channels := v.chansOf
                   sharedMemoryRegions := v.memsOf },
       st) := by
  rw [IpcSender.send, serializeValue_eq _ _ h]
  rfl

/-- Witness for C5 at a concrete value embedding a sender, a shared-memory
region and a receiver: the payload indices are 0 (first channel), 0 (first
region) and 1 (second channel), and the side-bands list the resources in
visit order. -/
theorem send_index_numbering_witness :
    IpcSender.send { os_sender := { handle := 1 } }
        (Value.pair (Value.sender { os_sender := { handle := 4 } })
          (Value.pair (Value.sharedMem { os_shared_memory := { bytes := [2] } })
            (Value.receiver { os_receiver := { handle := 6 } })))
        emptyThreadLocals =
      (Except.ok { data := [Token.nat 0, Token.nat 0, Token.nat 1]
                   channels := [OsIpcChannel.Sender { handle := 4 },
                                OsIpcChannel.Receiver { handle := 6 }]
                   sharedMemoryRegions := [{ bytes := [2] }] },
       emptyThreadLocals) :=
  send_index_numbering _ _ _ rfl

/-- C2: sending a value of pure byte content (no embedded endpoints or
shared-memory regions) and receiving on the paired receiver returns exactly
that value, and leaves the thread-local buffers as they were. -/
theorem send_recv_roundtrip (tx : IpcSender) (rx : IpcReceiver) (v : Value)
    (st : ThreadLocals) (h : v.pureBytes = true) :
    sendThenRecv tx rx v.ty v st = (RunResult.ok v, st) := by
  rw [sendThenRecv, IpcSender.send, serializeValue_eq _ _ (pureBytes_noFail v h)]
  dsimp only
  rw [pureBytes_chansOf v h, pureBytes_memsOf v h]
  rw [IpcReceiver.recv, OsMessage.deliver]
  dsimp only
  simp only [List.map_nil, OpaqueIpcMessage.new, OpaqueIpcMessage.to]
  rw [show ((Value.expectedTokens v
      (List.length ([] : List OsIpcChannel))
      (List.length ([] : List OsIpcSharedMemory)))) =
    (Value.expectedTokens v 0 0 ++ ([] : List Token)) from (List.append_nil _).symm]
  rw [deserializeValue_pure v h 0 0 []]

/-- Witness for C2: the byte string `[104, 105]` round-trips through a
channel pair starting from empty thread-local buffers. -/
theorem send_recv_roundtrip_witness :
    sendThenRecv { os_sender := { handle := 1 } } { os_receiver := { handle := 2 } }
        (Value.bytes [104, 105]).ty (Value.bytes [104, 105]) emptyThreadLocals =
      (RunResult.ok (Value.bytes [104, 105]), emptyThreadLocals) :=
  send_recv_roundtrip _ _ _ _ rfl

/-- C6: serializing a receiver endpoint (`IpcReceiver` or `IpcBytesReceiver`)
appends its consumed OS receiver wrapped in the tagged `Receiver` variant to
the outbound channel buffer, while serializing a sender endpoint
(`IpcSender`, `OpaqueIpcSender`, `IpcBytesSender`, all via
`serialize_os_ipc_sender`) appends a clone of its OS sender wrapped in the
tagged `Sender` variant (the clone shares the kernel handle, leaving the
local sender usable); globally, serialization of any non-failing value
appends exactly the `chansOf` list, which tags every embedded receiver as
`Receiver (consume ..)` and every embedded sender as `Sender (clone ..)`. -/
theorem serialize_endpoint_tagging :
    (∀ (r : IpcReceiver) (st : ThreadLocals),
      IpcReceiver.serialize r st =
        ([Token.nat st.osIpcChannelsForSerialization.length],
         { st with osIpcChannelsForSerialization := st.osIpcChannelsForSerialization ++
             [OsIpcChannel.Receiver r.os_receiver.consume] }))
    ∧ (∀ (r : IpcBytesReceiver) (st : ThreadLocals),
      IpcBytesReceiver.serialize r st =
        ([Token.nat st.osIpcChannelsForSerialization.length],
         { st with osIpcChannelsForSerialization := st.osIpcChannelsForSerialization ++
             [OsIpcChannel.Receiver r.os_receiver.consume] }))
    ∧ (∀ (s : OsIpcSender) (st : ThreadLocals),
      serialize_os_ipc_sender s st =
        ([Token.nat st.osIpcChannelsForSerialization.length],
         { st with osIpcChannelsForSerialization := st.osIpcChannelsForSerialization ++
             [OsIpcChannel.Sender s.clone] }))
    ∧ (∀ (v : Value) (st : ThreadLocals), v.noFail = true →
      (serializeValue v st).2.osIpcChannelsForSerialization =
        st.osIpcChannelsForSerialization ++ v.chansOf) := by
  refine ⟨fun r st => rfl, fun r st => rfl, fun s st => rfl, fun v st hv => ?_⟩
  rw [serializeValue_eq _ _ hv]

/-- C7: `IpcBytesSender::send` always hands the backend empty channel and
shared-memory side-band vectors, and `IpcBytesReceiver::recv` returns only
the payload bytes of the received triple, discarding whatever side-band
handles and memory regions the message carried. -/
theorem bytes_channel_no_sidebands :
    (∀ (tx : IpcBytesSender) (data : List Nat),
      (IpcBytesSender.send tx data).channels = [] ∧
      (IpcBytesSender.send tx data).sharedMemoryRegions = [])
    ∧ (∀ (rx : IpcBytesReceiver) (data : List Token) (chans : List OsOpaqueIpcChannel)
        (mems : List OsIpcSharedMemory),
      IpcBytesReceiver.recv rx (Except.ok (data, chans, mems)) = Except.ok data) :=
  ⟨fun _ _ => ⟨rfl, rfl⟩, fun _ _ _ _ => rfl⟩

/-- C8: the `Stream` adapter's poll returns a ready item when `try_recv`
yields a message, end-of-stream on a `ConnectionReset` I/O error, not-ready
on a `WouldBlock` I/O error, and propagates every other error. -/
theorem stream_poll_cases :
    (∀ (v : Value), IpcReceiver.poll Value (Except.ok v) =
      Except.ok (Async.ready (some v)))
    ∧ IpcReceiver.poll Value
        (Except.error (BincodeErrorKind.ioError IoErrorKind.connectionReset)) =
      Except.ok (Async.ready none)
    ∧ IpcReceiver.poll Value
        (Except.error (BincodeErrorKind.ioError IoErrorKind.wouldBlock)) =
      Except.ok Async.notReady
    ∧ (∀ (e : BincodeErrorKind),
        e ≠ BincodeErrorKind.ioError IoErrorKind.connectionReset →
        e ≠ BincodeErrorKind.ioError IoErrorKind.wouldBlock →
        IpcReceiver.poll Value (Except.error e) = Except.error e) := by
  refine ⟨fun v => rfl, rfl, rfl, fun e h1 h2 => ?_⟩
  cases e with
  | ioError k =>
    cases k with
    | connectionReset => exact absurd rfl h1
    | wouldBlock => exact absurd rfl h2
    | otherIo => rfl
  | customError => rfl

/-- C9: deserializing an `IpcSharedMemory` at an in-range index whose slot
still holds a region takes the region out, leaving `None` in that slot of
the inbound memory buffer; a second deserialization referencing the same
index within the same message then panics (`unwrap` of `None`) rather than
yielding a region or an error. -/
theorem shared_memory_take_once (index : Nat) (m : OsIpcSharedMemory)
    (st : ThreadLocals) (rest : List Token)
    (h : st.osIpcSharedMemoryRegionsForDeserialization[index]? = some (some m)) :
    IpcSharedMemory.deserialize (Token.nat index :: rest) st =
      (RunResult.ok ({ os_shared_memory := m }, rest),
       { st with osIpcSharedMemoryRegionsForDeserialization :=
           st.osIpcSharedMemoryRegionsForDeserialization.set index none })
    ∧ (IpcSharedMemory.deserialize (Token.nat index :: rest)
        { st with osIpcSharedMemoryRegionsForDeserialization :=
            st.osIpcSharedMemoryRegionsForDeserialization.set index none }).1 =
      RunResult.panicked := by
  have hlt : index < st.osIpcSharedMemoryRegionsForDeserialization.length := by
    by_contra hge
    rw [List.getElem?_eq_none (Nat.le_of_not_lt hge)] at h
    exact Option.noConfusion h
  have h2 : (st.osIpcSharedMemoryRegionsForDeserialization.set index
      (none : Option OsIpcSharedMemory))[index]? = some none :=
    List.getElem?_set_eq_of_lt _ hlt
  constructor
  · simp [IpcSharedMemory.deserialize, h]
  · simp [IpcSharedMemory.deserialize, h2]

/-- Witness for C9: the one-slot inbound memory buffer `[some ⟨[5]⟩]` at
index 0 yields the region and leaves `[none]`; a second take at index 0
panics. -/
theorem shared_memory_take_once_witness :
    (IpcSharedMemory.deserialize [Token.nat 0]
        { osIpcChannelsForSerialization := []
          osIpcSharedMemoryRegionsForSerialization := []
          osIpcChannelsForDeserialization := []
          osIpcSharedMemoryRegionsForDeserialization := [some { bytes := [5] }] } =
      (RunResult.ok ({ os_shared_memory := { bytes := [5] } }, []),
       { osIpcChannelsForSerialization := []
         osIpcSharedMemoryRegionsForSerialization := []
         osIpcChannelsForDeserialization := []
         osIpcSharedMemoryRegionsForDeserialization := [none] }))
    ∧ (IpcSharedMemory.deserialize [Token.nat 0]
        { osIpcChannelsForSerialization := []
          osIpcSharedMemoryRegionsForSerialization := []
          osIpcChannelsForDeserialization := []
          osIpcSharedMemoryRegionsForDeserialization := [none] }).1 =
      RunResult.panicked :=
  shared_memory_take_once 0 { bytes := [5] } _ [] rfl

/-- C10: `IpcSelectionResult::unwrap` returns the pair `(id, message)` for
`MessageReceived(id, message)` and panics for `ChannelClosed(id)`. -/
theorem selection_result_unwrap :
    (∀ (i : Nat) (message : OpaqueIpcMessage),
      IpcSelectionResult.unwrap (IpcSelectionResult.MessageReceived i message) =
        RunResult.ok (i, message))
    ∧ (∀ (i : Nat),
      IpcSelectionResult.unwrap (IpcSelectionResult.ChannelClosed i) =
        RunResult.panicked) :=
  ⟨fun _ _ => rfl, fun _ => rfl⟩

end IpcChannel
